import Mathlib

/-!
Verification development for the remote-agent registry and delegation
router of the LLM-MCP-A2A repository.

The Python sources are shallowly embedded: dictionaries become
association lists over `String` keys with Python's insertion/removal
semantics, mutable object state becomes explicit state passing, and
`raise` becomes `Except.error`.  Each definition mirrors one function of
the source tree (`src/router/app/host_agent.py`,
`src/router/app/remote_agent_connection.py`,
`src/router/app/router_agent.py`, `src/agent/app/agent.py`,
`src/router/app/agent_executor.py`,
`src/router/app/fastapi_host_server.py`).
-/

namespace Spec2Proof

/-! ## Python dictionary primitives

A Python `dict` preserves insertion order; assigning to an existing key
keeps its position, assigning a fresh key appends.  `pop` removes the
entry of a key.  We model dicts keyed by `String` as association lists.
-/

/-- Python `d[k] = v`: replace in place when the key exists, else append. -/
def dictInsert (k : String) (v : α) : List (String × α) → List (String × α)
  | [] => [(k, v)]
  | (k', v') :: rest =>
      if k' = k then (k, v) :: rest else (k', v') :: dictInsert k v rest

/-- Python `d.pop(k, default)`: drop the entry of `k` when present. -/
def dictPop (k : String) : List (String × α) → List (String × α)
  | [] => []
  | (k', v') :: rest =>
      if k' = k then rest else (k', v') :: dictPop k rest

/-- Python `d[k]` / `d.get(k)`: the value stored under `k`, if any. -/
def dictGet? (k : String) : List (String × α) → Option α
  | [] => none
  | (k', v') :: rest => if k' = k then some v' else dictGet? k rest

/-- Python `k in d`. -/
def dictContains (k : String) (d : List (String × α)) : Bool :=
  (dictGet? k d).isSome

/-! ## Data model (a2a.types)

`AgentCard` keeps the fields the router consults: `name` (identity key),
`description`, `url` (base address) and the declared capabilities.
-/

structure AgentCapabilities where
  streaming : Bool
deriving DecidableEq, Repr

structure AgentCard where
  name : String
  description : String
  url : String
  capabilities : AgentCapabilities
deriving DecidableEq, Repr

/-- `RemoteAgentConnections.__init__` stores the card (the HTTP client
handle carries no directory-relevant state). -/
structure RemoteAgentConnections where
  card : AgentCard
deriving DecidableEq, Repr

/-! ## Agent Directory state (HostAgent class-level globals)

`HostAgent` keeps three class-level collections:
`_global_remote_agent_connections : dict[str, RemoteAgentConnections]`,
`_global_cards : dict[str, AgentCard]`, `_global_addresses : list[str]`.
-/

structure HostState where
  connections : List (String × RemoteAgentConnections)
  cards : List (String × AgentCard)
  addresses : List String
deriving DecidableEq, Repr

def HostState.empty : HostState := ⟨[], [], []⟩

/-- `HostAgent.register_agent_card` (host_agent.py:95-102): inserts the
connection and the card keyed by `card.name`.  It does not touch the
address list. -/
def register_agent_card (card : AgentCard) (s : HostState) : HostState :=
  { s with
    connections := dictInsert card.name ⟨card⟩ s.connections
    cards := dictInsert card.name card s.cards }

/-- `HostAgent.remove_agent_card` (host_agent.py:104-123): raises
`ValueError` when the name is absent; otherwise pops the connection and
the card, and removes the connection card's url from the address list
when it is a truthy string present there. -/
def remove_agent_card (agent_name : String) (s : HostState) :
    Except String HostState :=
  match dictGet? agent_name s.connections with
  | none => .error ("Agent " ++ agent_name ++ " not found")
  | some connection =>
      let agent_url := connection.card.url
      let addresses :=
        if agent_url ≠ "" ∧ agent_url ∈ s.addresses then
          s.addresses.erase agent_url
        else s.addresses
      .ok { connections := dictPop agent_name s.connections
            cards := dictPop agent_name s.cards
            addresses := addresses }

/-- The synchronous part of `HostAgent.__init__` (host_agent.py:76-78):
append each constructor address not already in the global address list.
The card registration it schedules runs asynchronously, later. -/
def hostInit (remote_agent_addresses : List String) (s : HostState) : HostState :=
  { s with
    addresses := remote_agent_addresses.foldl
      (fun acc addr => if addr ∈ acc then acc else acc ++ [addr]) s.addresses }

/-- `add_agent` of the management surface (fastapi_host_server.py:67-106):
reject an address already registered, resolve the card (may fail), then
append the address and register the card. -/
def add_agent (address : String) (resolved : Except String AgentCard)
    (s : HostState) : Except String HostState :=
  if address ∈ s.addresses then .error "Agent address already registered"
  else
    match resolved with
    | .error e => .error e
    | .ok card =>
        .ok (register_agent_card card
              { s with addresses := s.addresses ++ [address] })

/-- `remove_agent` of the management surface (fastapi_host_server.py:109-129):
delegates to `remove_agent_card`; a `ValueError` becomes an HTTP 404 and
the state is unchanged. -/
def remove_agent (agent_name : String) (s : HostState) : HostState :=
  match remove_agent_card agent_name s with
  | .ok s' => s'
  | .error _ => s

/-! ## Directory mutation traces -/

inductive DirectoryOp where
  | construct (addrs : List String)
  | registerCard (card : AgentCard)
  | removeCard (name : String)
  | mgmtAdd (address : String) (resolved : Except String AgentCard)
  | mgmtRemove (name : String)

/-- One observable mutation of the shared directory; a raised error
leaves the state as it was. -/
def applyOp (op : DirectoryOp) (s : HostState) : HostState :=
  match op with
  | .construct addrs => hostInit addrs s
  | .registerCard card => register_agent_card card s
  | .removeCard name =>
      match remove_agent_card name s with
      | .ok s' => s'
      | .error _ => s
  | .mgmtAdd address resolved =>
      match add_agent address resolved s with
      | .ok s' => s'
      | .error _ => s
  | .mgmtRemove name => remove_agent name s

def applyOps (ops : List DirectoryOp) (s : HostState) : HostState :=
  ops.foldl (fun st op => applyOp op st) s

/-! ## The directory-consistency predicate of the spec -/

def connNames (s : HostState) : List String := s.connections.map Prod.fst

def cardNames (s : HostState) : List String := s.cards.map Prod.fst

/-- Names whose card address is present in the address list. -/
def addressRegisteredNames (s : HostState) : List String :=
  (s.cards.filter (fun p => s.addresses.contains p.2.url)).map Prod.fst

def subsetB (a b : List String) : Bool := a.all fun x => b.contains x

/-- The spec's three-way lockstep: names in `connections` = names in
`cards` = names whose card address is in `addresses` (as sets). -/
def lockstep3 (s : HostState) : Bool :=
  subsetB (connNames s) (cardNames s) && subsetB (cardNames s) (connNames s) &&
  subsetB (cardNames s) (addressRegisteredNames s) &&
  subsetB (addressRegisteredNames s) (cardNames s)

/-! ## Key-level behaviour of the dictionary primitives -/

def keysInsert (k : String) : List String → List String
  | [] => [k]
  | k' :: r => if k' = k then k' :: r else k' :: keysInsert k r

def keysPop (k : String) : List String → List String
  | [] => []
  | k' :: r => if k' = k then r else k' :: keysPop k r

/-! ## Directory invariants -/

/-- Names in `connections` coincide with names in `cards`. -/
def twoWayLockstep (s : HostState) : Prop := connNames s = cardNames s

/-- Invariant maintained by the management surface: connections mirror
cards entry-for-entry, every current card's url is in the address list,
and distinct current card entries hold distinct urls.  The address list
may contain stale entries (left behind by a same-name overwrite or by a
skipped falsy-url removal); those do not disturb the name-set lockstep. -/
def mgmtInv (s : HostState) : Prop :=
  s.connections = s.cards.map (fun p => (p.1, RemoteAgentConnections.mk p.2)) ∧
  (∀ p ∈ s.cards, p.2.url ∈ s.addresses) ∧
  (s.cards.map (fun p => p.2.url)).Nodup

/-- Directory states reachable through the management surface alone:
adds whose resolved card declares the registered address as its url
(re-registering an existing name and empty addresses included), adds
whose card resolution failed, and removes of arbitrary names. -/
inductive MgmtReachable : HostState → Prop
  | empty : MgmtReachable HostState.empty
  | add {s : HostState} {address : String} {card : AgentCard} :
      MgmtReachable s → card.url = address →
      MgmtReachable (applyOp (.mgmtAdd address (.ok card)) s)
  | addFailed {s : HostState} {address e : String} :
      MgmtReachable s →
      MgmtReachable (applyOp (.mgmtAdd address (.error e)) s)
  | remove {s : HostState} {name : String} :
      MgmtReachable s → MgmtReachable (applyOp (.mgmtRemove name) s)

/-! ## Streaming preference (C2)

`HostAgent.send_message` invokes the remote connection at
host_agent.py:293 as `client.send_message(request, self.task_callback,
False)`; the remote connection picks the streamed exchange only when
that third argument and the card capability are both true.
-/

/-- Branch condition of `RemoteAgentConnections.send_message`
(remote_agent_connection.py:69). -/
def remoteSendUsesStreaming (card : AgentCard) (streaming : Bool) : Bool :=
  streaming && card.capabilities.streaming

/-- The literal streaming argument at the host's call site
(host_agent.py:293). -/
def hostStreamingArgument : Bool := false

/-- Whether a delegation issued by `HostAgent.send_message` uses the
streamed exchange for a given target card. -/
def hostDelegationUsesStreaming (card : AgentCard) : Bool :=
  remoteSendUsesStreaming card hostStreamingArgument

/-! ## History trimming (C3) -/

def HISTORY_LENGTH : Nat := 3

/-- `HostAgent.before_model_callback` (host_agent.py:177-217) as the
transformation applied to `llm_request.contents`. -/
def before_model_callback (contents : List α) : List α :=
  let n := contents.length
  if n = 0 then contents
  else if n % 2 = 0 then contents
  else
    let num_turns := (n - 1) / 2
    let keep_turns := min HISTORY_LENGTH num_turns
    let start_idx := (num_turns - keep_turns) * 2
    if start_idx > 0 then contents.drop start_idx else contents

/-! ## Remote-connection streamed exchange (C4, C10) -/

inductive TaskStateE where
  | submitted
  | working
  | input_required
  | completed
  | canceled
  | failed
  | unknown
deriving DecidableEq, Repr

inductive A2APart where
  | text (s : String)
  | data (payload : String)
  | file (name : String) (bytes : String) (mimeType : String)
deriving DecidableEq, Repr

structure A2AMessage where
  parts : List A2APart
deriving DecidableEq, Repr

structure TaskStatus where
  state : TaskStateE
  message : Option A2AMessage
deriving DecidableEq, Repr

structure Artifact where
  parts : List A2APart
deriving DecidableEq, Repr

structure A2ATask where
  id : String
  contextId : Option String
  status : TaskStatus
  artifacts : Option (List Artifact)
deriving DecidableEq, Repr

/-- A status-update or artifact-update event of the streamed exchange;
`final = some b` means the object has a `final` attribute with value
`b`, `none` means it has no such attribute (e.g. a bare `Task`). -/
structure TaskEvent where
  final : Option Bool
  payload : Nat
deriving DecidableEq, Repr

/-- One response of the server-streamed exchange
(remote_agent_connection.py:71-92): an error envelope, a terminal plain
message, or a task/update event. -/
inductive StreamResponse where
  | errorResp (message : String)
  | message (m : A2AMessage)
  | taskEvent (e : TaskEvent)
deriving DecidableEq, Repr

/-- The union returned by `RemoteAgentConnections.send_message`:
`Task | Message | None` or an error envelope. -/
inductive SendResult where
  | task (t : Option A2ATask)
  | message (m : A2AMessage)
  | rpcError (message : String)
deriving DecidableEq, Repr

/-- The streamed branch of `RemoteAgentConnections.send_message`
(remote_agent_connection.py:69-93), over the sequence of responses the
remote emits: returns how many events were consumed and the returned
value.  `task` is the running snapshot, initially `None`; it is only
ever written from the task-observer callback. -/
def send_message_streaming (task_callback : Option (TaskEvent → A2ATask)) :
    List StreamResponse → Option A2ATask → Nat × SendResult
  | [], task => (0, .task task)
  | response :: rest, task =>
      match response with
      | .errorResp e => (1, .rpcError e)
      | .message m => (1, .message m)
      | .taskEvent event =>
          let task' := match task_callback with
            | some cb => some (cb event)
            | none => task
          if event.final = some true then (1, .task task')
          else
            let r := send_message_streaming task_callback rest task'
            (r.1 + 1, r.2)

/-! ## Delegation task-state policy (C5, C6)

`HostAgent.send_message` mutates `tool_context.state` and
`tool_context.actions`; both are bundled into one record here.
-/

structure ToolState where
  agent : Option String
  task_id : Option String
  context_id : Option String
  message_id : Option String
  session_active : Bool
  skip_summarization : Bool
  escalate : Bool
deriving DecidableEq, Repr

def initialToolState : ToolState :=
  { agent := none, task_id := none, context_id := none, message_id := none,
    session_active := false, skip_summarization := false, escalate := false }

/-- The router's uniform content representation produced by
`convert_part`. -/
inductive ConvertedPart where
  | text (s : String)
  | data (payload : String)
  | fileRef (name : String)
deriving DecidableEq, Repr

/-- `convert_part` (host_agent.py:356-375): text and data pass through;
a file part is persisted as an artifact keyed by the file name, the
summarization-suppression and escalation flags are set, and a structured
`artifact-file-id` reference is returned. -/
def convert_part (part : A2APart) (st : ToolState) : ConvertedPart × ToolState :=
  match part with
  | .text s => (.text s, st)
  | .data payload => (.data payload, st)
  | .file name _ _ =>
      (.fileRef name, { st with skip_summarization := true, escalate := true })

/-- `convert_parts` (host_agent.py:349-353). -/
def convert_parts (parts : List A2APart) (st : ToolState) :
    List ConvertedPart × ToolState :=
  match parts with
  | [] => ([], st)
  | p :: rest =>
      let r := convert_part p st
      let rr := convert_parts rest r.2
      (r.1 :: rr.1, rr.2)

/-- The `for artifact in task.artifacts` loop of `HostAgent.send_message`
(host_agent.py:334-338): extend the response with each artifact's
converted parts. -/
def convert_artifacts (arts : List Artifact)
    (acc : List ConvertedPart × ToolState) : List ConvertedPart × ToolState :=
  match arts with
  | [] => acc
  | artifact :: rest =>
      let r := convert_parts artifact.parts acc.2
      convert_artifacts rest (acc.1 ++ r.1, r.2)

/-- Content collection of `HostAgent.send_message` (host_agent.py:328-340):
parts of the status message, then parts of every artifact. -/
def collect_task_content (task : A2ATask) (st : ToolState) :
    ToolState × Except String (List ConvertedPart) :=
  let r1 := match task.status.message with
    | some msg => convert_parts msg.parts st
    | none => ([], st)
  let r2 := match task.artifacts with
    | some artifacts => convert_artifacts artifacts r1
    | none => r1
  (r2.2, .ok r2.1)

/-- State mutation of `HostAgent.send_message` (host_agent.py:308-317),
run before the task-state branch: refresh `session_active`, adopt the
task's context id when truthy, and always store the task id. -/
def update_conversation_state (task : A2ATask) (st : ToolState) : ToolState :=
  let st1 := { st with session_active :=
    !([TaskStateE.completed, .canceled, .failed, .unknown].contains
        task.status.state) }
  let st2 := match task.contextId with
    | some cid => if cid = "" then st1 else { st1 with context_id := some cid }
    | none => st1
  { st2 with task_id := some task.id }

/-- Task-state policy of `HostAgent.send_message` (host_agent.py:304-340),
run after the remote connection returned a `Task`: update the
conversation state, then branch on the task state; `Except.error` models
the raised `ValueError`. -/
def handle_task_response (agent_name : String) (task : A2ATask)
    (st : ToolState) : ToolState × Except String (List ConvertedPart) :=
  let st3 := update_conversation_state task st
  if task.status.state = .input_required then
    collect_task_content task
      { st3 with skip_summarization := true, escalate := true }
  else if task.status.state = .canceled then
    (st3, .error ("Agent " ++ agent_name ++ " task " ++ task.id ++
      " is cancelled"))
  else if task.status.state = .failed then
    (st3, .error ("Agent " ++ agent_name ++ " task " ++ task.id ++ " failed"))
  else collect_task_content task st3

/-! ## Orchestrator streams (C7, C8)

`AgentEvolution.stream` (agent.py:59-152) and `RouterAgent.stream`
(router_agent.py:92-171) both consume `runner.run_async` events and
yield `is_task_complete` items; only the former wraps the loop in
`asyncio.timeout(300)` with `except` clauses.
-/

/-- One part of a collaborator event's content: `text = ""` models an
absent/falsy text, `functionResponse` the optional function response
whose `model_dump()` payload is kept opaque. -/
structure GenPart where
  text : String
  functionResponse : Option String
deriving DecidableEq, Repr

/-- One event yielded by `runner.run_async`; `parts = []` models an
event whose content is empty or absent. -/
structure AdkEvent where
  final : Bool
  parts : List GenPart
deriving DecidableEq, Repr

/-- How the inner run of a turn terminates. -/
inductive RunEnd where
  | done
  | timedOut
  | failed (message : String)
deriving DecidableEq, Repr

/-- The observable behaviour of `runner.run_async` during one turn: the
events it yields, then how it terminates. -/
structure RunnerRun where
  events : List AdkEvent
  ending : RunEnd
deriving DecidableEq, Repr

inductive StreamContent where
  | text (s : String)
  | data (payload : String)
deriving DecidableEq, Repr

/-- One item yielded by a stream: a final `is_task_complete: true` item
carrying content, or a non-final progress update. -/
inductive StreamItem where
  | complete (content : StreamContent)
  | update (message : String)
deriving DecidableEq, Repr

/-- Result of one `stream` call: the items yielded to the caller, and
the exception that escaped to the caller, if any. -/
structure StreamRun where
  items : List StreamItem
  escaped : Option String
deriving DecidableEq, Repr

/-- Python `'\n'.join(p.text for p in parts if p.text)`. -/
def joinTexts (parts : List GenPart) : String :=
  String.intercalate "\n"
    ((parts.filter (fun p => p.text ≠ "")).map (fun p => p.text))

/-- Final-response computation of `AgentEvolution.stream`
(agent.py:86-116): a text response when some part has truthy text, else
the first function response when one exists (the generator filters on
`p.function_response`), else `none` (the falsy `response = None`). -/
def agentFinalResponse (parts : List GenPart) : Option StreamContent :=
  if parts.any (fun p => p.text ≠ "") then some (.text (joinTexts parts))
  else
    match parts.find? (fun p => p.functionResponse.isSome) with
    | some p =>
        match p.functionResponse with
        | some d => some (.data d)
        | none => none
    | none => none

/-- Per-event processing of `AgentEvolution.stream` (agent.py:85-140):
a final event is reported complete only when it produced truthy content,
otherwise a generic processing update is yielded. -/
def agentProcessEvent (processing_message : Option String)
    (event : AdkEvent) : StreamItem :=
  if event.final then
    match agentFinalResponse event.parts with
    | some c => .complete c
    | none => .update (processing_message.getD "Processing...")
  else .update (processing_message.getD "Processing...")

/-- `AgentEvolution.stream` (agent.py:59-152): the loop runs inside
`try` under `asyncio.timeout(300)`; `TimeoutError` yields a terminal
timed-out content item, any other exception a terminal error item, so
nothing escapes to the caller. -/
def agentEvolutionStream (processing_message : Option String)
    (run : RunnerRun) : StreamRun :=
  let items := run.events.map (agentProcessEvent processing_message)
  match run.ending with
  | .done => ⟨items, none⟩
  | .timedOut =>
      ⟨items ++ [.complete (.text "Agent timed out while processing request")],
       none⟩
  | .failed msg =>
      ⟨items ++ [.complete (.text ("Agent error: " ++ msg))], none⟩

/-- Final-response computation of `RouterAgent.stream`
(router_agent.py:134-158): the text branch requires the first part's
text to be truthy; the function-response branch calls `model_dump()` on
the first part's `function_response` without filtering, raising
`AttributeError` when the first part has none; with neither branch the
response stays the empty string. -/
def routerFinalResponse (parts : List GenPart) : Except String StreamContent :=
  match parts with
  | [] => .ok (.text "")
  | p :: rest =>
      if p.text ≠ "" then .ok (.text (joinTexts (p :: rest)))
      else if (p :: rest).any (fun q => q.functionResponse.isSome) then
        match p.functionResponse with
        | some d => .ok (.data d)
        | none =>
            .error "AttributeError: NoneType object has no attribute model_dump"
      else .ok (.text "")

/-- Per-event processing of `RouterAgent.stream` (router_agent.py:129-171). -/
def routerProcessEvent (event : AdkEvent) : Except String StreamItem :=
  if event.final then
    match routerFinalResponse event.parts with
    | .ok c => .ok (.complete c)
    | .error e => .error e
  else .ok (.update "Processing the reimbursement request...")

/-- Items yielded by the router's event loop until some event's
processing raises; the escaped exception, if any, comes second. -/
def routerEmit : List AdkEvent → List StreamItem × Option String
  | [] => ([], none)
  | event :: rest =>
      match routerProcessEvent event with
      | .error e => ([], some e)
      | .ok item =>
          let r := routerEmit rest
          (item :: r.1, r.2)

/-- `RouterAgent.stream` (router_agent.py:92-171): there is no timeout
wrapper and no `try`/`except`, so any exception of the underlying run —
or of the stream's own response handling — escapes to the caller after
the items already yielded. -/
def routerStream (run : RunnerRun) : StreamRun :=
  let r := routerEmit run.events
  match r.2 with
  | some e => ⟨r.1, some e⟩
  | none =>
      match run.ending with
      | .done => ⟨r.1, none⟩
      | .timedOut => ⟨r.1, some "TimeoutError"⟩
      | .failed msg => ⟨r.1, some msg⟩

/-! ## Execution adapter (C9) -/

/-- Content of a final stream item as `MyAgentExecutor.execute` sees it:
a dict shaped `{response: {result: [...]}}`, some other dict, or plain
text. -/
inductive ExecContent where
  | text (s : String)
  | form (results : List String)
  | otherDict
deriving DecidableEq, Repr

inductive ExecItem where
  | update (message : String)
  | complete (content : ExecContent)
deriving DecidableEq, Repr

/-- Events the executor publishes to the event queue. -/
inductive ExecEvent where
  | statusWorking (message : String)
  | statusInputRequired (payload : String) (final : Bool)
  | statusFailed (message : String) (final : Bool)
  | artifact (name : String) (text : String)
  | completeTask
deriving DecidableEq, Repr

/-- The event-consumption loop of `MyAgentExecutor.execute`
(agent_executor.py:70-124): non-final items publish working updates;
the first final item is handled by shape and then the loop breaks. -/
def executeLoop : List ExecItem → List ExecEvent
  | [] => []
  | item :: rest =>
      match item with
      | .update msg => .statusWorking msg :: executeLoop rest
      | .complete (.form results) =>
          results.map (fun r => .statusInputRequired r true)
      | .complete .otherDict =>
          [.statusFailed "Reaching an unexpected state" true]
      | .complete (.text s) => [.artifact "form" s, .completeTask]

/-! ## Concrete sample inputs -/

def cardAlpha : AgentCard :=
  { name := "Alpha", description := "demo weather agent",
    url := "http://a", capabilities := { streaming := true } }

/-- A re-registration of the same agent name resolved from a different
address. -/
def cardAlphaB : AgentCard :=
  { name := "Alpha", description := "demo weather agent v2",
    url := "http://b", capabilities := { streaming := false } }

def failedTask : A2ATask :=
  { id := "task-1", contextId := some "ctx-1",
    status := { state := .failed, message := none }, artifacts := none }

def inputRequiredTask : A2ATask :=
  { id := "task-2", contextId := some "ctx-2",
    status := { state := .input_required,
                message := some { parts := [.text "need more info"] } },
    artifacts := none }

/-- A sample task-observer callback for witnesses. -/
def sampleCallback (e : TaskEvent) : A2ATask :=
  { id := "snap-" ++ toString e.payload, contextId := none,
    status := { state := .working, message := none }, artifacts := none }

/-! ## Lemmas about the primitives -/

theorem map_fst_dictInsert (k : String) (v : α) (d : List (String × α)) :
    (dictInsert k v d).map Prod.fst = keysInsert k (d.map Prod.fst) := by
  induction d with
  | nil => rfl
  | cons p rest ih =>
      by_cases h : p.1 = k
      · simp [dictInsert, keysInsert, h]
      · simp [dictInsert, keysInsert, h, ih]

theorem map_fst_dictPop (k : String) (d : List (String × α)) :
    (dictPop k d).map Prod.fst = keysPop k (d.map Prod.fst) := by
  induction d with
  | nil => rfl
  | cons p rest ih =>
      by_cases h : p.1 = k
      · simp [dictPop, keysPop, h]
      · simp [dictPop, keysPop, h, ih]

theorem dictInsert_map_snd (f : β → γ) (k : String) (v : β)
    (d : List (String × β)) :
    dictInsert k (f v) (d.map (fun p => (p.1, f p.2)))
      = (dictInsert k v d).map (fun p => (p.1, f p.2)) := by
  induction d with
  | nil => rfl
  | cons p rest ih =>
      by_cases h : p.1 = k
      · simp [dictInsert, h]
      · simp [dictInsert, h, ih]

theorem dictPop_map_snd (f : β → γ) (k : String) (d : List (String × β)) :
    dictPop k (d.map (fun p => (p.1, f p.2)))
      = (dictPop k d).map (fun p => (p.1, f p.2)) := by
  induction d with
  | nil => rfl
  | cons p rest ih =>
      by_cases h : p.1 = k
      · simp [dictPop, h]
      · simp [dictPop, h, ih]

theorem dictGet?_map_snd (f : β → γ) (k : String) (d : List (String × β)) :
    dictGet? k (d.map (fun p => (p.1, f p.2))) = (dictGet? k d).map f := by
  induction d with
  | nil => rfl
  | cons p rest ih =>
      by_cases h : p.1 = k
      · simp [dictGet?, h]
      · simp [dictGet?, h, ih]

theorem dictGet?_mem_values {k : String} {d : List (String × β)} {v : β}
    (h : dictGet? k d = some v) : v ∈ d.map Prod.snd := by
  induction d with
  | nil => simp [dictGet?] at h
  | cons p rest ih =>
      by_cases hk : p.1 = k
      · simp [dictGet?, hk] at h
        simp [h]
      · simp [dictGet?, hk] at h
        simp [ih h]

theorem mem_dictInsert {k : String} {v : β} {d : List (String × β)}
    {q : String × β} (h : q ∈ dictInsert k v d) : q = (k, v) ∨ q ∈ d := by
  induction d with
  | nil => simpa [dictInsert] using h
  | cons p rest ih =>
      by_cases hk : p.1 = k
      · simp only [dictInsert, hk, if_pos] at h
        rcases List.mem_cons.mp h with h1 | h1
        · exact .inl h1
        · exact .inr (List.mem_cons_of_mem _ h1)
      · simp only [dictInsert, hk, if_false] at h
        rcases List.mem_cons.mp h with h1 | h1
        · exact .inr (h1 ▸ List.mem_cons_self p rest)
        · rcases ih h1 with h2 | h2
          · exact .inl h2
          · exact .inr (List.mem_cons_of_mem _ h2)

theorem mem_dictPop {k : String} {d : List (String × β)}
    {q : String × β} (h : q ∈ dictPop k d) : q ∈ d := by
  induction d with
  | nil => simpa [dictPop] using h
  | cons p rest ih =>
      by_cases hk : p.1 = k
      · simp only [dictPop, hk, if_pos] at h
        exact List.mem_cons_of_mem _ h
      · simp only [dictPop, hk, if_false] at h
        rcases List.mem_cons.mp h with h1 | h1
        · exact h1 ▸ List.mem_cons_self p rest
        · exact List.mem_cons_of_mem _ (ih h1)

theorem dictPop_sublist (k : String) (d : List (String × β)) :
    List.Sublist (dictPop k d) d := by
  induction d with
  | nil => simp [dictPop]
  | cons p rest ih =>
      by_cases hk : p.1 = k
      · simp only [dictPop, hk, if_pos]
        exact (List.Sublist.refl rest).cons p
      · simp only [dictPop, hk, if_false]
        exact ih.cons₂ p

theorem remove_agent_card_ok {name : String} {s s' : HostState}
    (h : remove_agent_card name s = .ok s') :
    ∃ connection, dictGet? name s.connections = some connection ∧
      s' = { connections := dictPop name s.connections
             cards := dictPop name s.cards
             addresses :=
               if connection.card.url ≠ "" ∧ connection.card.url ∈ s.addresses
               then s.addresses.erase connection.card.url
               else s.addresses } := by
  unfold remove_agent_card at h
  cases hget : dictGet? name s.connections with
  | none => simp [hget] at h
  | some c =>
      simp only [hget, Except.ok.injEq] at h
      exact ⟨c, rfl, h.symm⟩

theorem mem_urls_of_dictGet? {name : String} {d : List (String × AgentCard)}
    {card : AgentCard} (h : dictGet? name d = some card) :
    card.url ∈ d.map (fun p => p.2.url) := by
  have h1 := dictGet?_mem_values h
  simpa [List.map_map, Function.comp] using
    List.mem_map_of_mem (fun c : AgentCard => c.url) h1

theorem twoWayLockstep_applyOp (op : DirectoryOp) {s : HostState}
    (h : twoWayLockstep s) : twoWayLockstep (applyOp op s) := by
  cases op with
  | construct addrs =>
      simpa [applyOp, hostInit, twoWayLockstep, connNames, cardNames] using h
  | registerCard card =>
      unfold twoWayLockstep connNames cardNames at *
      simp [applyOp, register_agent_card, map_fst_dictInsert, h]
  | removeCard name =>
      simp only [applyOp]
      cases hg : remove_agent_card name s with
      | error e => exact h
      | ok s' =>
          obtain ⟨c, _, hs'⟩ := remove_agent_card_ok hg
          subst hs'
          unfold twoWayLockstep connNames cardNames at *
          simp [map_fst_dictPop, h]
  | mgmtAdd address resolved =>
      simp only [applyOp, add_agent]
      by_cases hmem : address ∈ s.addresses
      · simpa [hmem] using h
      · cases resolved with
        | error e => simpa [hmem] using h
        | ok card =>
            unfold twoWayLockstep connNames cardNames at *
            simp [hmem, register_agent_card, map_fst_dictInsert, h]
  | mgmtRemove name =>
      simp only [applyOp, remove_agent]
      cases hg : remove_agent_card name s with
      | error e => exact h
      | ok s' =>
          obtain ⟨c, _, hs'⟩ := remove_agent_card_ok hg
          subst hs'
          unfold twoWayLockstep connNames cardNames at *
          simp [map_fst_dictPop, h]

theorem twoWayLockstep_applyOps (ops : List DirectoryOp) (s : HostState)
    (h : twoWayLockstep s) : twoWayLockstep (applyOps ops s) := by
  induction ops generalizing s with
  | nil => simpa [applyOps] using h
  | cons op rest ih =>
      have h1 := twoWayLockstep_applyOp op h
      simpa [applyOps] using ih (applyOp op s) h1

theorem nodup_urls_dictInsert {k : String} {c : AgentCard}
    {d : List (String × AgentCard)} {A : List String}
    (hcov : ∀ p ∈ d, p.2.url ∈ A)
    (hnd : (d.map (fun p => p.2.url)).Nodup)
    (hnew : c.url ∉ A) :
    ((dictInsert k c d).map (fun p => p.2.url)).Nodup := by
  induction d with
  | nil => simp [dictInsert]
  | cons p rest ih =>
      simp only [List.map_cons, List.nodup_cons] at hnd
      by_cases hk : p.1 = k
      · simp only [dictInsert, hk, if_pos, List.map_cons, List.nodup_cons]
        refine ⟨?_, hnd.2⟩
        intro hmemc
        obtain ⟨q, hq, hqe⟩ := List.mem_map.mp hmemc
        apply hnew
        rw [← hqe]
        exact hcov q (List.mem_cons_of_mem _ hq)
      · simp only [dictInsert, hk, if_false, List.map_cons, List.nodup_cons]
        refine ⟨?_, ih (fun q hq => hcov q (List.mem_cons_of_mem _ hq)) hnd.2⟩
        intro hmem
        obtain ⟨q, hq, hqe⟩ := List.mem_map.mp hmem
        rcases mem_dictInsert hq with h1 | h1
        · subst h1
          apply hnew
          have hqe' : c.url = p.2.url := hqe
          rw [hqe']
          exact hcov p (List.mem_cons_self p rest)
        · apply hnd.1
          rw [← hqe]
          exact List.mem_map_of_mem _ h1

theorem url_ne_of_mem_dictPop {k : String} {d : List (String × AgentCard)}
    {v : AgentCard} {q : String × AgentCard}
    (hget : dictGet? k d = some v)
    (hnd : (d.map (fun p => p.2.url)).Nodup)
    (hq : q ∈ dictPop k d) :
    q.2.url ≠ v.url := by
  induction d with
  | nil => simp [dictGet?] at hget
  | cons p rest ih =>
      simp only [List.map_cons, List.nodup_cons] at hnd
      by_cases hk : p.1 = k
      · simp only [dictGet?, hk, if_pos, Option.some.injEq] at hget
        simp only [dictPop, hk, if_pos] at hq
        intro he
        apply hnd.1
        rw [hget, ← he]
        exact List.mem_map_of_mem _ hq
      · simp only [dictGet?, hk, if_false] at hget
        simp only [dictPop, hk, if_false] at hq
        rcases List.mem_cons.mp hq with h1 | h1
        · subst h1
          intro he
          apply hnd.1
          rw [he]
          exact mem_urls_of_dictGet? hget
        · exact ih hget hnd.2 h1

theorem mgmtInv_mgmtAdd {s : HostState} {address : String} {card : AgentCard}
    (hs : mgmtInv s) (hurl : card.url = address) :
    mgmtInv (applyOp (.mgmtAdd address (.ok card)) s) := by
  obtain ⟨hc, hcov, hnd⟩ := hs
  by_cases hmem : address ∈ s.addresses
  · have hstate : applyOp (.mgmtAdd address (.ok card)) s = s := by
      simp [applyOp, add_agent, hmem]
    rw [hstate]
    exact ⟨hc, hcov, hnd⟩
  · simp only [applyOp, add_agent, hmem, if_neg, if_false, register_agent_card,
      mgmtInv]
    refine ⟨?_, ?_, ?_⟩
    · rw [hc, dictInsert_map_snd]
    · intro p hp
      rcases mem_dictInsert hp with h1 | h1
      · subst h1
        simp [hurl]
      · exact List.mem_append_left _ (hcov p h1)
    · refine nodup_urls_dictInsert hcov hnd ?_
      rw [hurl]
      exact hmem

theorem mgmtInv_mgmtRemove (name : String) {s : HostState}
    (hs : mgmtInv s) : mgmtInv (applyOp (.mgmtRemove name) s) := by
  obtain ⟨hc, hcov, hnd⟩ := hs
  simp only [applyOp, remove_agent]
  cases hg : remove_agent_card name s with
  | error e => exact ⟨hc, hcov, hnd⟩
  | ok s' =>
      obtain ⟨conn, hget, hs'⟩ := remove_agent_card_ok hg
      subst hs'
      rw [hc] at hget
      rw [dictGet?_map_snd] at hget
      cases hcard : dictGet? name s.cards with
      | none => rw [hcard] at hget; simp at hget
      | some cardv =>
          rw [hcard] at hget
          simp at hget
          have hconn : conn = RemoteAgentConnections.mk cardv := hget.symm
          subst hconn
          refine ⟨?_, ?_, ?_⟩
          · rw [hc, dictPop_map_snd]
          · intro q hq
            have hmemq : q.2.url ∈ s.addresses := hcov q (mem_dictPop hq)
            by_cases hguard : (RemoteAgentConnections.mk cardv).card.url ≠ ""
                ∧ (RemoteAgentConnections.mk cardv).card.url ∈ s.addresses
            · rw [if_pos hguard]
              have hne : q.2.url ≠ cardv.url :=
                url_ne_of_mem_dictPop hcard hnd hq
              exact (List.mem_erase_of_ne hne).mpr hmemq
            · rw [if_neg hguard]
              exact hmemq
          · exact List.Nodup.sublist
              (List.Sublist.map _ (dictPop_sublist name s.cards)) hnd

theorem applyOp_mgmtAdd_error (address e : String) (s : HostState) :
    applyOp (.mgmtAdd address (.error e)) s = s := by
  by_cases hmem : address ∈ s.addresses <;> simp [applyOp, add_agent, hmem]

theorem mgmtInv_of_mgmtReachable {s : HostState} (h : MgmtReachable s) :
    mgmtInv s := by
  induction h with
  | empty =>
      refine ⟨rfl, ?_, ?_⟩
      · intro p hp
        simp [HostState.empty] at hp
      · simp [HostState.empty]
  | add hr hurl ih => exact mgmtInv_mgmtAdd ih hurl
  | addFailed hr ih =>
      rw [applyOp_mgmtAdd_error]
      exact ih
  | remove hr ih => exact mgmtInv_mgmtRemove _ ih

theorem subsetB_of_eq {a b : List String} (h : a = b) : subsetB a b = true := by
  subst h
  simp only [subsetB, List.all_eq_true]
  intro x hx
  simpa using hx

theorem lockstep3_of_mgmtInv {s : HostState} (hs : mgmtInv s) :
    lockstep3 s = true := by
  obtain ⟨hc, hcov, _⟩ := hs
  have hconn : connNames s = cardNames s := by
    rw [connNames, hc, List.map_map]
    rfl
  have hfilter : s.cards.filter (fun p => s.addresses.contains p.2.url)
      = s.cards := by
    apply List.filter_eq_self.mpr
    intro p hp
    simpa using hcov p hp
  have haddr : addressRegisteredNames s = cardNames s := by
    rw [addressRegisteredNames, hfilter]
    rfl
  simp only [lockstep3, Bool.and_eq_true]
  exact ⟨⟨⟨subsetB_of_eq hconn, subsetB_of_eq hconn.symm⟩,
    subsetB_of_eq haddr.symm⟩, subsetB_of_eq haddr⟩

/-! ## Lemmas about content conversion and state mutation -/

theorem convert_part_state (p : A2APart) (st : ToolState) :
    (convert_part p st).2.session_active = st.session_active ∧
    (st.escalate = true → (convert_part p st).2.escalate = true) ∧
    (st.skip_summarization = true →
      (convert_part p st).2.skip_summarization = true) ∧
    (convert_part p st).2.task_id = st.task_id ∧
    (convert_part p st).2.context_id = st.context_id := by
  cases p <;> simp [convert_part]

theorem convert_parts_state (ps : List A2APart) (st : ToolState) :
    (convert_parts ps st).2.session_active = st.session_active ∧
    (st.escalate = true → (convert_parts ps st).2.escalate = true) ∧
    (st.skip_summarization = true →
      (convert_parts ps st).2.skip_summarization = true) ∧
    (convert_parts ps st).2.task_id = st.task_id ∧
    (convert_parts ps st).2.context_id = st.context_id := by
  induction ps generalizing st with
  | nil => simp [convert_parts]
  | cons p rest ih =>
      obtain ⟨a1, a2, a3, a4, a5⟩ := convert_part_state p st
      obtain ⟨b1, b2, b3, b4, b5⟩ := ih (convert_part p st).2
      refine ⟨?_, ?_, ?_, ?_, ?_⟩ <;> simp only [convert_parts]
      · rw [b1, a1]
      · intro hz; exact b2 (a2 hz)
      · intro hz; exact b3 (a3 hz)
      · rw [b4, a4]
      · rw [b5, a5]

theorem convert_artifacts_state (arts : List Artifact)
    (acc : List ConvertedPart × ToolState) :
    (convert_artifacts arts acc).2.session_active = acc.2.session_active ∧
    (acc.2.escalate = true → (convert_artifacts arts acc).2.escalate = true) ∧
    (acc.2.skip_summarization = true →
      (convert_artifacts arts acc).2.skip_summarization = true) ∧
    (convert_artifacts arts acc).2.task_id = acc.2.task_id ∧
    (convert_artifacts arts acc).2.context_id = acc.2.context_id := by
  induction arts generalizing acc with
  | nil => simp [convert_artifacts]
  | cons artifact rest ih =>
      obtain ⟨a1, a2, a3, a4, a5⟩ := convert_parts_state artifact.parts acc.2
      obtain ⟨b1, b2, b3, b4, b5⟩ :=
        ih (acc.1 ++ (convert_parts artifact.parts acc.2).1,
            (convert_parts artifact.parts acc.2).2)
      refine ⟨?_, ?_, ?_, ?_, ?_⟩ <;> simp only [convert_artifacts]
      · rw [b1]; exact a1
      · intro hz; exact b2 (a2 hz)
      · intro hz; exact b3 (a3 hz)
      · rw [b4]; exact a4
      · rw [b5]; exact a5

theorem collect_task_content_spec (task : A2ATask) (st : ToolState) :
    (∃ parts, (collect_task_content task st).2 = Except.ok parts) ∧
    (collect_task_content task st).1.session_active = st.session_active ∧
    (st.escalate = true → (collect_task_content task st).1.escalate = true) ∧
    (st.skip_summarization = true →
      (collect_task_content task st).1.skip_summarization = true) ∧
    (collect_task_content task st).1.task_id = st.task_id ∧
    (collect_task_content task st).1.context_id = st.context_id := by
  unfold collect_task_content
  cases hm : task.status.message with
  | none =>
      cases ha : task.artifacts with
      | none => simp
      | some arts =>
          obtain ⟨c1, c2, c3, c4, c5⟩ := convert_artifacts_state arts ([], st)
          exact ⟨⟨_, rfl⟩, c1, c2, c3, c4, c5⟩
  | some msg =>
      obtain ⟨a1, a2, a3, a4, a5⟩ := convert_parts_state msg.parts st
      cases ha : task.artifacts with
      | none => exact ⟨⟨_, rfl⟩, a1, a2, a3, a4, a5⟩
      | some arts =>
          obtain ⟨c1, c2, c3, c4, c5⟩ :=
            convert_artifacts_state arts (convert_parts msg.parts st)
          refine ⟨⟨_, rfl⟩, ?_, ?_, ?_, ?_, ?_⟩
          · rw [c1]; exact a1
          · intro hz; exact c2 (a2 hz)
          · intro hz; exact c3 (a3 hz)
          · rw [c4]; exact a4
          · rw [c5]; exact a5

theorem update_conversation_state_fields (task : A2ATask) (st : ToolState) :
    (update_conversation_state task st).task_id = some task.id ∧
    (update_conversation_state task st).session_active =
      !([TaskStateE.completed, .canceled, .failed, .unknown].contains
          task.status.state) ∧
    (update_conversation_state task st).skip_summarization
      = st.skip_summarization ∧
    (update_conversation_state task st).escalate = st.escalate ∧
    ∀ cid, task.contextId = some cid → cid ≠ "" →
      (update_conversation_state task st).context_id = some cid := by
  unfold update_conversation_state
  cases hc : task.contextId with
  | none => simp
  | some cid =>
      by_cases hcc : cid = ""
      · subst hcc
        refine ⟨rfl, rfl, rfl, rfl, ?_⟩
        intro cid' hcid' hne
        injection hcid' with hx
        exact absurd hx.symm hne
      · simp only [if_neg hcc]
        refine ⟨by trivial, by trivial, by trivial, by trivial, ?_⟩
        intro cid' hcid' _
        exact hcid'

/-! ## Claim C1 — directory consistency -/

/-- C1 (counterexample): a single bare `register_agent_card` from the
empty directory puts the name into `connections` and `cards` but never
adds the card's address, so at that observation point the set of names
whose address is registered is empty and the claimed three-way lockstep
fails. -/
theorem C1_counterexample_bare_register :
    lockstep3 (applyOps [DirectoryOp.registerCard cardAlpha] HostState.empty)
      = false := by decide

/-- C1 (amended): `connections` and `cards` stay in name-lockstep under
every sequence of directory mutations, but the address list does not in
general; the full three-way lockstep holds at every observation point
of every trace that mutates only through the management surface —
re-registering an existing name, empty addresses, failed card
resolutions and removes of unknown names included — provided each
resolved card declares the registered address as its url. -/
theorem C1_directory_lockstep :
    (∀ (ops : List DirectoryOp) (s : HostState),
        twoWayLockstep s → twoWayLockstep (applyOps ops s)) ∧
    (∀ s : HostState, MgmtReachable s → lockstep3 s = true) :=
  ⟨fun ops s h => twoWayLockstep_applyOps ops s h,
   fun _ h => lockstep3_of_mgmtInv (mgmtInv_of_mgmtReachable h)⟩

/-- C1 (witness): the amended theorem applied to a concrete trace of one
bare registration, and to a management-surface trace that re-registers
the name "Alpha" from a second address. -/
theorem C1_directory_lockstep_witness :
    twoWayLockstep
      (applyOps [DirectoryOp.registerCard cardAlpha] HostState.empty) ∧
    lockstep3
      (applyOp (.mgmtAdd "http://b" (.ok cardAlphaB))
        (applyOp (.mgmtAdd "http://a" (.ok cardAlpha)) HostState.empty))
      = true :=
  ⟨C1_directory_lockstep.1 [DirectoryOp.registerCard cardAlpha]
      HostState.empty rfl,
   C1_directory_lockstep.2 _
      (MgmtReachable.add (MgmtReachable.add MgmtReachable.empty rfl) rfl)⟩

/-! ## Claim C2 — streaming preference -/

/-- C2 (code bug): `HostAgent.send_message` documents that it sends
"either streaming (if supported) or non-streaming", yet its call site
passes the literal `False`, so even for a card that declares streaming
support the delegation takes the unary branch — while the remote
connection itself would stream for that card had the flag been true. -/
theorem C2_streaming_preference_ignored :
    cardAlpha.capabilities.streaming = true ∧
    hostDelegationUsesStreaming cardAlpha = false ∧
    remoteSendUsesStreaming cardAlpha true = true := by decide

/-! ## Claim C3 — history trimming -/

/-- C3 (counterexample): with cap 3 and exactly 7 history entries,
`before_model_callback` keeps all 7 entries; it does not reduce them to
the last 6 as the claim states. -/
theorem C3_counterexample_seven_entries :
    before_model_callback [0, 1, 2, 3, 4, 5, 6] = [0, 1, 2, 3, 4, 5, 6] ∧
    before_model_callback [0, 1, 2, 3, 4, 5, 6] ≠ [1, 2, 3, 4, 5, 6] := by
  decide

/-- C3 (amended): with cap 3, a history of exactly 7 entries (3 complete
turns plus the pending prompt) is not trimmed at all; 8 entries (even)
are likewise kept untouched; trimming first applies at 9 entries, which
are cut to the last 7. -/
theorem C3_history_trimming (l7 l8 l9 : List Nat)
    (h7 : l7.length = 7) (h8 : l8.length = 8) (h9 : l9.length = 9) :
    before_model_callback l7 = l7 ∧
    before_model_callback l8 = l8 ∧
    before_model_callback l9 = l9.drop 2 := by
  refine ⟨?_, ?_, ?_⟩ <;>
    simp [before_model_callback, h7, h8, h9, HISTORY_LENGTH]

/-- C3 (witness): the amended theorem at concrete histories of sizes 7,
8 and 9. -/
theorem C3_history_trimming_witness :
    before_model_callback [0, 1, 2, 3, 4, 5, 6] = [0, 1, 2, 3, 4, 5, 6] ∧
    before_model_callback [0, 1, 2, 3, 4, 5, 6, 7]
      = [0, 1, 2, 3, 4, 5, 6, 7] ∧
    before_model_callback [0, 1, 2, 3, 4, 5, 6, 7, 8]
      = List.drop 2 [0, 1, 2, 3, 4, 5, 6, 7, 8] :=
  C3_history_trimming [0, 1, 2, 3, 4, 5, 6] [0, 1, 2, 3, 4, 5, 6, 7]
    [0, 1, 2, 3, 4, 5, 6, 7, 8] rfl rfl rfl

/-! ## Claim C4 — streaming termination -/

/-- C4: when the remote emits `N` non-final task events followed by one
final-flagged task event, the streamed send consumes exactly `N + 1`
events and returns once, with the last task snapshot observed through
the task-observer callback (the snapshot of the final event). -/
theorem C4_streaming_termination (cb : TaskEvent → A2ATask)
    (pre : List TaskEvent) (fin : TaskEvent) (start : Option A2ATask)
    (hpre : ∀ e ∈ pre, e.final ≠ some true)
    (hfin : fin.final = some true) :
    send_message_streaming (some cb)
        (pre.map StreamResponse.taskEvent ++ [StreamResponse.taskEvent fin])
        start
      = (pre.length + 1, .task (some (cb fin))) := by
  induction pre generalizing start with
  | nil => simp [send_message_streaming, hfin]
  | cons e rest ih =>
      have he : ¬ (e.final = some true) := hpre e (by simp)
      have hrest : ∀ x ∈ rest, x.final ≠ some true := by
        intro x hx
        exact hpre x (by simp [hx])
      simp [send_message_streaming, he, ih (some (cb e)) hrest]

/-- C4 (witness): two non-final events then one final event are consumed
as exactly three events and the callback's snapshot of the final event
is returned. -/
theorem C4_streaming_termination_witness :
    send_message_streaming (some sampleCallback)
        (([⟨some false, 1⟩, ⟨none, 2⟩] : List TaskEvent).map
            StreamResponse.taskEvent ++
          [StreamResponse.taskEvent ⟨some true, 3⟩]) none
      = (2 + 1, .task (some (sampleCallback ⟨some true, 3⟩))) :=
  C4_streaming_termination sampleCallback [⟨some false, 1⟩, ⟨none, 2⟩]
    ⟨some true, 3⟩ none (by decide) rfl

/-! ## Claim C5 — failed task raises after the state update -/

/-- C5: a returned task in failed state makes the delegation raise the
failure `ValueError`, and at raise time the conversation state already
holds the latest task id — and the task's context id whenever the task
carries a truthy one. -/
theorem C5_failed_task_raises_after_state_update (agent_name : String)
    (task : A2ATask) (st : ToolState)
    (h : task.status.state = .failed) :
    (handle_task_response agent_name task st).2
        = .error ("Agent " ++ agent_name ++ " task " ++ task.id ++
            " failed") ∧
    (handle_task_response agent_name task st).1.task_id = some task.id ∧
    ∀ cid, task.contextId = some cid → cid ≠ "" →
      (handle_task_response agent_name task st).1.context_id = some cid := by
  obtain ⟨u1, _, _, _, u5⟩ := update_conversation_state_fields task st
  have hred : handle_task_response agent_name task st
      = (update_conversation_state task st,
         .error ("Agent " ++ agent_name ++ " task " ++ task.id ++
           " failed")) := by
    unfold handle_task_response
    rw [h]
    simp
  rw [hred]
  exact ⟨rfl, u1, fun cid hc hne => u5 cid hc hne⟩

/-- C5 (witness): the theorem at a concrete failed task carrying a
context id. -/
theorem C5_failed_task_witness :
    (handle_task_response "Alpha" failedTask initialToolState).2
        = .error ("Agent " ++ "Alpha" ++ " task " ++ failedTask.id ++
            " failed") ∧
    (handle_task_response "Alpha" failedTask initialToolState).1.task_id
        = some failedTask.id ∧
    (handle_task_response "Alpha" failedTask initialToolState).1.context_id
        = some "ctx-1" :=
  have h := C5_failed_task_raises_after_state_update "Alpha" failedTask
    initialToolState rfl
  ⟨h.1, h.2.1, h.2.2 "ctx-1" rfl (by decide)⟩

/-! ## Claim C6 — input-required escalation -/

/-- C6: a returned task in input-required state sets the
summarization-suppression and escalation flags, leaves the session
marked active, and the delegation returns collected content rather than
raising. -/
theorem C6_input_required_escalates (agent_name : String) (task : A2ATask)
    (st : ToolState) (h : task.status.state = .input_required) :
    (handle_task_response agent_name task st).1.skip_summarization = true ∧
    (handle_task_response agent_name task st).1.escalate = true ∧
    (handle_task_response agent_name task st).1.session_active = true ∧
    ∃ parts, (handle_task_response agent_name task st).2
      = Except.ok parts := by
  have hred : handle_task_response agent_name task st
      = collect_task_content task
          { update_conversation_state task st with
            skip_summarization := true, escalate := true } := by
    unfold handle_task_response
    rw [h]
    simp
  rw [hred]
  obtain ⟨hok, c1, c2, c3, _, _⟩ :=
    collect_task_content_spec task
      { update_conversation_state task st with
        skip_summarization := true, escalate := true }
  obtain ⟨_, u2, _, _, _⟩ := update_conversation_state_fields task st
  have hsa : ({ update_conversation_state task st with
      skip_summarization := true, escalate := true } : ToolState).session_active
      = true := by
    show (update_conversation_state task st).session_active = true
    rw [u2, h]
    decide
  refine ⟨c3 rfl, c2 rfl, ?_, hok⟩
  rw [c1]
  exact hsa

/-- C6 (witness): the theorem at a concrete input-required task. -/
theorem C6_input_required_witness :
    (handle_task_response "Alpha" inputRequiredTask
        initialToolState).1.skip_summarization = true ∧
    (handle_task_response "Alpha" inputRequiredTask
        initialToolState).1.escalate = true ∧
    (handle_task_response "Alpha" inputRequiredTask
        initialToolState).1.session_active = true ∧
    ∃ parts, (handle_task_response "Alpha" inputRequiredTask
        initialToolState).2 = Except.ok parts :=
  C6_input_required_escalates "Alpha" inputRequiredTask initialToolState rfl

/-! ## Claim C7 — exceptions and the turn timeout -/

/-- C7 (counterexample): `RouterAgent.stream` — one of the two
orchestrator streams the claim covers — has no timeout wrapper and no
exception handler, so an uncaught failure of the underlying turn escapes
to its caller instead of becoming a terminal error content event. -/
theorem C7_counterexample_router_propagates :
    routerStream ⟨[], .failed "boom"⟩ = ⟨[], some "boom"⟩ := by decide

/-- C7 (amended): the outer agent layer's `AgentEvolution.stream` never
lets an exception escape: every run yields a plain item list with
nothing escaped; a timeout ends it with the terminal timed-out content
event, and any other failure with a terminal error event carrying the
failure description.  `RouterAgent.stream` does not share this
protection (see the counterexample). -/
theorem C7_agent_stream_never_escapes (pm : Option String)
    (run : RunnerRun) :
    (agentEvolutionStream pm run).escaped = none ∧
    (run.ending = .timedOut →
      (agentEvolutionStream pm run).items.getLast? =
        some (.complete
          (.text "Agent timed out while processing request"))) ∧
    (∀ msg, run.ending = .failed msg →
      (agentEvolutionStream pm run).items.getLast? =
        some (.complete (.text ("Agent error: " ++ msg)))) := by
  obtain ⟨events, ending⟩ := run
  cases ending <;> simp [agentEvolutionStream, List.getLast?_concat]

/-- C7 (witness): the amended theorem at a run that times out after
yielding nothing. -/
theorem C7_agent_stream_never_escapes_witness :
    (agentEvolutionStream none ⟨[], .timedOut⟩).escaped = none ∧
    (agentEvolutionStream none ⟨[], .timedOut⟩).items.getLast? =
      some (.complete (.text "Agent timed out while processing request")) :=
  ⟨(C7_agent_stream_never_escapes none ⟨[], .timedOut⟩).1,
   (C7_agent_stream_never_escapes none ⟨[], .timedOut⟩).2.1 rfl⟩

/-! ## Claim C8 — final event with empty content -/

/-- C8 (counterexample): `RouterAgent.stream` — cited by the claim —
reacts to a final collaborator event with empty content by yielding an
item that declares the task complete (with empty content), not a
non-final processing update. -/
theorem C8_counterexample_router_completes_empty :
    routerStream ⟨[⟨true, []⟩], .done⟩
      = ⟨[.complete (.text "")], none⟩ := by decide

/-- C8 (amended): the agent layer's stream treats a final collaborator
event with empty content (no truthy text, no function response) as an
anomaly and yields a non-final generic processing update, never a
completion item; the router's stream instead declares completion with
empty content (see the counterexample). -/
theorem C8_empty_final_yields_processing (pm : Option String)
    (parts : List GenPart)
    (h : ∀ p ∈ parts, p.text = "" ∧ p.functionResponse = none) :
    agentProcessEvent pm ⟨true, parts⟩
      = .update (pm.getD "Processing...") := by
  have hany : parts.any (fun p => p.text ≠ "") = false := by
    simp only [List.any_eq_false]
    intro p hp
    simp [(h p hp).1]
  have hfind : parts.find? (fun p => p.functionResponse.isSome) = none := by
    simp only [List.find?_eq_none]
    intro p hp
    simp [(h p hp).2]
  have hres : agentFinalResponse parts = none := by
    unfold agentFinalResponse
    rw [hany, hfind]
    simp
  simp [agentProcessEvent, hres]

/-- C8 (witness): the amended theorem at a final event with no content
parts at all. -/
theorem C8_empty_final_yields_processing_witness :
    agentProcessEvent none ⟨true, []⟩ = .update "Processing..." :=
  C8_empty_final_yields_processing none [] (by simp)

/-! ## Claim C9 — final plain-text event completes the task -/

/-- C9: when the orchestrator stream yields working updates and then a
final item with plain-text content, the executor publishes the working
statuses, then exactly one completed artifact named "form" carrying that
text together with the task completion, and processes no later item. -/
theorem C9_final_text_completes (updates : List String) (t : String)
    (rest : List ExecItem) :
    executeLoop (updates.map ExecItem.update ++
        ExecItem.complete (.text t) :: rest)
      = updates.map ExecEvent.statusWorking ++
          [.artifact "form" t, .completeTask] := by
  induction updates with
  | nil => simp [executeLoop]
  | cons u us ih => simp [executeLoop, ih]

/-! ## Claim C10 — missing callback loses the snapshot -/

/-- With no task-observer callback the running snapshot of the streamed
loop is never written, so the loop hands back its initial accumulator. -/
theorem send_message_streaming_no_callback (tes : List TaskEvent)
    (start : Option A2ATask) :
    (send_message_streaming none (tes.map StreamResponse.taskEvent)
        start).2 = .task start := by
  induction tes generalizing start with
  | nil => simp [send_message_streaming]
  | cons e rest ih =>
      by_cases hf : e.final = some true
      · simp [send_message_streaming, hf]
      · simp [send_message_streaming, hf, ih start]

/-- C10: a streamed exchange that receives only task events (no terminal
plain message) and was given no task-observer callback returns `None`
as its snapshot no matter how many task events it consumed — the value
returned is only ever what the callback produced, never the last event
itself. -/
theorem C10_no_callback_returns_none (tes : List TaskEvent) :
    (send_message_streaming none (tes.map StreamResponse.taskEvent)
        none).2 = .task none :=
  send_message_streaming_no_callback tes none

end Spec2Proof
